import Mathlib

/-!
Verification of `receiver_view.py` (projectaria_client_sdk_samples_gen2).

The script keeps the latest frame per stream ("rgb", "slam") in four
module-level variables guarded by one lock, updated by two SDK callbacks,
and runs a polling display loop that snapshots the cache, shows the RGB
frame (BGR-converted and annotated with its timestamp) and optionally the
SLAM frame, until a quit key or a KeyboardInterrupt; teardown destroys all
windows.

Modelling choices, each from the source:
* The lock makes every `with _lock:` block atomic, so a callback body and
  the snapshot read are single atomic steps on the cache state.
* Pixel buffers are modelled symbolically (`Img`): `Img.raw n` is the
  array produced by `to_numpy_array`, `Img.bgrOf` is the fresh array
  returned by `cv2.cvtColor(..., COLOR_RGB2BGR)`, and `Img.annotated`
  is the state of a buffer after `cv2.putText` drew the timestamp text on
  it.  `numpy.ndarray.copy()` returns an array with identical contents, so
  in this value-level model a copy is the value itself; object identity
  and in-place mutation are treated separately in the heap model below.
* `cv2.waitKey(1) & 0xFF` is `key % 256`; `ord("q") = 113`.
-/

namespace ReceiverView

/-- Symbolic pixel buffer: `raw n` is the decoded array `to_numpy_array`
returned (identified by `n`), `bgrOf i` the fresh array `cv2.cvtColor`
produced from `i`, `annotated t i` the buffer `i` after `cv2.putText`
drew the text `t` on it. -/
inductive Img where
  | raw (id : Nat)
  | bgrOf (i : Img)
  | annotated (text : String) (i : Img)
deriving DecidableEq, Repr

/-- `ImageData` argument of a callback; `to_numpy_array` decodes it. -/
structure ImageData where
  arrayId : Nat
deriving DecidableEq, Repr

/-- `ImageDataRecord` argument of a callback, carrying the capture
timestamp in nanoseconds. -/
structure ImageDataRecord where
  capture_timestamp_ns : Int
deriving DecidableEq, Repr

/-- `image_data.to_numpy_array()`: the decoded pixel array. -/
def to_numpy_array (d : ImageData) : Img :=
  Img.raw d.arrayId

/-- The four module-level variables `_latest_rgb`, `_latest_rgb_ts`,
`_latest_slam`, `_latest_slam_ts` (lines 14-17), all `None` initially. -/
structure Cache where
  latest_rgb : Option Img
  latest_rgb_ts : Option Int
  latest_slam : Option Img
  latest_slam_ts : Option Int
deriving DecidableEq, Repr

/-- Startup state: every variable is `None`. -/
def initCache : Cache :=
  { latest_rgb := none, latest_rgb_ts := none,
    latest_slam := none, latest_slam_ts := none }

/-- `rgb_callback` (lines 20-25): decode, then under the lock store the
image and its capture timestamp. -/
def rgb_callback (d : ImageData) (rec : ImageDataRecord) (c : Cache) : Cache :=
  { c with latest_rgb := some (to_numpy_array d),
           latest_rgb_ts := some rec.capture_timestamp_ns }

/-- `slam_callback` (lines 28-33): decode, then under the lock store the
image and its capture timestamp. -/
def slam_callback (d : ImageData) (rec : ImageDataRecord) (c : Cache) : Cache :=
  { c with latest_slam := some (to_numpy_array d),
           latest_slam_ts := some rec.capture_timestamp_ns }

/-- One callback invocation (a `put`), tagged by stream. -/
inductive PutCall where
  | putRgb (d : ImageData) (rec : ImageDataRecord)
  | putSlam (d : ImageData) (rec : ImageDataRecord)
deriving DecidableEq, Repr

/-- Apply one put to the cache: dispatch to the registered callback. -/
def applyPut (p : PutCall) (c : Cache) : Cache :=
  match p with
  | PutCall.putRgb d rec => rgb_callback d rec c
  | PutCall.putSlam d rec => slam_callback d rec c

/-- Apply a finite sequence of puts in order. -/
def applyPuts (ps : List PutCall) (c : Cache) : Cache :=
  match ps with
  | [] => c
  | p :: rest => applyPuts rest (applyPut p c)

/-- What the display loop reads under the lock (lines 73-77): local
copies of the two images and the two timestamps. -/
structure Snapshot where
  rgb : Option Img
  rgb_ts : Option Int
  slam : Option Img
  slam_ts : Option Int
deriving DecidableEq, Repr

/-- The snapshot block (lines 73-77): `rgb = _latest_rgb.copy()` when
present (a copy has the same contents, hence the same value here), and
the two timestamps read as they are. -/
def get_snapshot (c : Cache) : Snapshot :=
  { rgb := c.latest_rgb, rgb_ts := c.latest_rgb_ts,
    slam := c.latest_slam, slam_ts := c.latest_slam_ts }

/-- The record a single put would store: the decoded image and the
timestamp. -/
def putRecordRgb (p : PutCall) : Option (Img × Int) :=
  match p with
  | PutCall.putRgb d rec => some (to_numpy_array d, rec.capture_timestamp_ns)
  | _ => none

/-- The record a single slam put would store. -/
def putRecordSlam (p : PutCall) : Option (Img × Int) :=
  match p with
  | PutCall.putSlam d rec => some (to_numpy_array d, rec.capture_timestamp_ns)
  | _ => none

/-- The record of the last rgb put in the sequence, `none` if there is
none: later puts take precedence. -/
def lastRgb (ps : List PutCall) : Option (Img × Int) :=
  match ps with
  | [] => none
  | p :: rest =>
    match lastRgb rest with
    | some x => some x
    | none => putRecordRgb p

/-- The record of the last slam put in the sequence. -/
def lastSlam (ps : List PutCall) : Option (Img × Int) :=
  match ps with
  | [] => none
  | p :: rest =>
    match lastSlam rest with
    | some x => some x
    | none => putRecordSlam p

lemma applyPut_rgb_component (p : PutCall) (c : Cache) :
    (applyPut p c).latest_rgb =
      (match putRecordRgb p with
       | some x => some x.1
       | none => c.latest_rgb) ∧
    (applyPut p c).latest_rgb_ts =
      (match putRecordRgb p with
       | some x => some x.2
       | none => c.latest_rgb_ts) := by
  cases p <;> simp [applyPut, rgb_callback, slam_callback, putRecordRgb]

lemma applyPut_slam_component (p : PutCall) (c : Cache) :
    (applyPut p c).latest_slam =
      (match putRecordSlam p with
       | some x => some x.1
       | none => c.latest_slam) ∧
    (applyPut p c).latest_slam_ts =
      (match putRecordSlam p with
       | some x => some x.2
       | none => c.latest_slam_ts) := by
  cases p <;> simp [applyPut, rgb_callback, slam_callback, putRecordSlam]

lemma applyPuts_rgb_component (ps : List PutCall) (c : Cache) :
    (applyPuts ps c).latest_rgb =
      (match lastRgb ps with
       | some x => some x.1
       | none => c.latest_rgb) ∧
    (applyPuts ps c).latest_rgb_ts =
      (match lastRgb ps with
       | some x => some x.2
       | none => c.latest_rgb_ts) := by
  induction ps generalizing c with
  | nil => simp [applyPuts, lastRgb]
  | cons p rest ih =>
    have h := applyPut_rgb_component p c
    have hr := ih (applyPut p c)
    constructor
    · rw [show applyPuts (p :: rest) c = applyPuts rest (applyPut p c) from rfl,
        hr.1, h.1]
      cases hlr : lastRgb rest <;> cases hp : putRecordRgb p <;>
        simp [lastRgb, hlr, hp]
    · rw [show applyPuts (p :: rest) c = applyPuts rest (applyPut p c) from rfl,
        hr.2, h.2]
      cases hlr : lastRgb rest <;> cases hp : putRecordRgb p <;>
        simp [lastRgb, hlr, hp]

lemma applyPuts_slam_component (ps : List PutCall) (c : Cache) :
    (applyPuts ps c).latest_slam =
      (match lastSlam ps with
       | some x => some x.1
       | none => c.latest_slam) ∧
    (applyPuts ps c).latest_slam_ts =
      (match lastSlam ps with
       | some x => some x.2
       | none => c.latest_slam_ts) := by
  induction ps generalizing c with
  | nil => simp [applyPuts, lastSlam]
  | cons p rest ih =>
    have h := applyPut_slam_component p c
    have hr := ih (applyPut p c)
    constructor
    · rw [show applyPuts (p :: rest) c = applyPuts rest (applyPut p c) from rfl,
        hr.1, h.1]
      cases hlr : lastSlam rest <;> cases hp : putRecordSlam p <;>
        simp [lastSlam, hlr, hp]
    · rw [show applyPuts (p :: rest) c = applyPuts rest (applyPut p c) from rfl,
        hr.2, h.2]
      cases hlr : lastSlam rest <;> cases hp : putRecordSlam p <;>
        simp [lastSlam, hlr, hp]

/-- An atomic event on the shared cache: a callback invocation (`put`)
or a snapshot read by the display loop.  Each is one `with _lock:` block
in the source, hence one atomic step. -/
inductive Ev where
  | put (p : PutCall)
  | snap
deriving DecidableEq, Repr

/-- Run a trace of atomic events from a cache state, collecting the
snapshots the display loop observed, in order. -/
def runTrace (evs : List Ev) (c : Cache) : Cache × List Snapshot :=
  match evs with
  | [] => (c, [])
  | Ev.put p :: rest => runTrace rest (applyPut p c)
  | Ev.snap :: rest =>
    let (c1, ss) := runTrace rest c
    (c1, get_snapshot c :: ss)

/-- The puts occurring in a trace, in order. -/
def putsOf (evs : List Ev) : List PutCall :=
  match evs with
  | [] => []
  | Ev.put p :: rest => p :: putsOf rest
  | Ev.snap :: rest => putsOf rest

/-- Per-stream consistency of a cache state with respect to a set of
puts: each stream's slot is either entirely absent, or holds exactly the
image and timestamp written by one single put of the list. -/
def consistentC (ps : List PutCall) (c : Cache) : Prop :=
  ((c.latest_rgb = none ∧ c.latest_rgb_ts = none) ∨
    ∃ d rec, PutCall.putRgb d rec ∈ ps ∧
      c.latest_rgb = some (to_numpy_array d) ∧
      c.latest_rgb_ts = some rec.capture_timestamp_ns) ∧
  ((c.latest_slam = none ∧ c.latest_slam_ts = none) ∨
    ∃ d rec, PutCall.putSlam d rec ∈ ps ∧
      c.latest_slam = some (to_numpy_array d) ∧
      c.latest_slam_ts = some rec.capture_timestamp_ns)

/-- Per-stream consistency of a snapshot: each stream is either absent
(image and timestamp both `none`), or image and timestamp both come from
one single put of the list. -/
def consistentS (ps : List PutCall) (s : Snapshot) : Prop :=
  ((s.rgb = none ∧ s.rgb_ts = none) ∨
    ∃ d rec, PutCall.putRgb d rec ∈ ps ∧
      s.rgb = some (to_numpy_array d) ∧
      s.rgb_ts = some rec.capture_timestamp_ns) ∧
  ((s.slam = none ∧ s.slam_ts = none) ∨
    ∃ d rec, PutCall.putSlam d rec ∈ ps ∧
      s.slam = some (to_numpy_array d) ∧
      s.slam_ts = some rec.capture_timestamp_ns)

lemma consistentC_mono {ps ps' : List PutCall} {c : Cache}
    (hsub : ∀ p, p ∈ ps → p ∈ ps') (h : consistentC ps c) :
    consistentC ps' c := by
  obtain ⟨h1, h2⟩ := h
  constructor
  · rcases h1 with h1 | ⟨d, rec, hm, hi, ht⟩
    · exact Or.inl h1
    · exact Or.inr ⟨d, rec, hsub _ hm, hi, ht⟩
  · rcases h2 with h2 | ⟨d, rec, hm, hi, ht⟩
    · exact Or.inl h2
    · exact Or.inr ⟨d, rec, hsub _ hm, hi, ht⟩

lemma consistentC_applyPut {ps : List PutCall} {c : Cache} (p : PutCall)
    (h : consistentC ps c) :
    consistentC (p :: ps) (applyPut p c) := by
  have hmono : consistentC (p :: ps) c :=
    consistentC_mono (fun q hq => List.mem_cons_of_mem p hq) h
  obtain ⟨h1, h2⟩ := hmono
  cases p with
  | putRgb d rec =>
    refine ⟨Or.inr ⟨d, rec, List.mem_cons_self _ _, rfl, rfl⟩, ?_⟩
    rcases h2 with h2 | ⟨d', rec', hm, hi, ht⟩
    · exact Or.inl h2
    · exact Or.inr ⟨d', rec', hm, hi, ht⟩
  | putSlam d rec =>
    refine ⟨?_, Or.inr ⟨d, rec, List.mem_cons_self _ _, rfl, rfl⟩⟩
    rcases h1 with h1 | ⟨d', rec', hm, hi, ht⟩
    · exact Or.inl h1
    · exact Or.inr ⟨d', rec', hm, hi, ht⟩

lemma consistentS_of_consistentC {ps : List PutCall} {c : Cache}
    (h : consistentC ps c) : consistentS ps (get_snapshot c) := by
  obtain ⟨h1, h2⟩ := h
  exact ⟨h1, h2⟩

lemma runTrace_consistent (evs : List Ev) (c : Cache) (ps : List PutCall)
    (h : consistentC ps c) :
    ∀ s ∈ (runTrace evs c).2, consistentS (ps ++ putsOf evs) s := by
  induction evs generalizing c ps with
  | nil => intro s hs; simp [runTrace] at hs
  | cons e rest ih =>
    cases e with
    | put p =>
      intro s hs
      have hc : consistentC (p :: ps) (applyPut p c) := consistentC_applyPut p h
      have := ih (applyPut p c) (p :: ps) hc s (by simpa [runTrace] using hs)
      refine ?_
      have hsub : ∀ q, q ∈ (p :: ps) ++ putsOf rest →
          q ∈ ps ++ putsOf (Ev.put p :: rest) := by
        intro q hq
        simp [putsOf] at hq ⊢
        tauto
      obtain ⟨g1, g2⟩ := this
      constructor
      · rcases g1 with g1 | ⟨d, rec, hm, hi, ht⟩
        · exact Or.inl g1
        · exact Or.inr ⟨d, rec, hsub _ hm, hi, ht⟩
      · rcases g2 with g2 | ⟨d, rec, hm, hi, ht⟩
        · exact Or.inl g2
        · exact Or.inr ⟨d, rec, hsub _ hm, hi, ht⟩
    | snap =>
      intro s hs
      simp only [runTrace, putsOf] at hs ⊢
      rcases List.mem_cons.mp hs with heq | hmem
      · subst heq
        have hc : consistentC (ps ++ putsOf rest) c :=
          consistentC_mono (fun q hq => List.mem_append_left _ hq) h
        exact consistentS_of_consistentC hc
      · exact ih c ps h s hmem

/-- C1.  For every finite sequence of puts applied to the startup cache,
the snapshot returns for each stream exactly the image and timestamp of
the last put to that stream, and `none` for a stream with no put. -/
theorem snapshot_last_write_wins (ps : List PutCall) :
    (get_snapshot (applyPuts ps initCache)).rgb =
      (lastRgb ps).map Prod.fst ∧
    (get_snapshot (applyPuts ps initCache)).rgb_ts =
      (lastRgb ps).map Prod.snd ∧
    (get_snapshot (applyPuts ps initCache)).slam =
      (lastSlam ps).map Prod.fst ∧
    (get_snapshot (applyPuts ps initCache)).slam_ts =
      (lastSlam ps).map Prod.snd := by
  have hr := applyPuts_rgb_component ps initCache
  have hs := applyPuts_slam_component ps initCache
  refine ⟨?_, ?_, ?_, ?_⟩
  · rw [show (get_snapshot (applyPuts ps initCache)).rgb =
      (applyPuts ps initCache).latest_rgb from rfl, hr.1]
    cases lastRgb ps <;> simp [initCache]
  · rw [show (get_snapshot (applyPuts ps initCache)).rgb_ts =
      (applyPuts ps initCache).latest_rgb_ts from rfl, hr.2]
    cases lastRgb ps <;> simp [initCache]
  · rw [show (get_snapshot (applyPuts ps initCache)).slam =
      (applyPuts ps initCache).latest_slam from rfl, hs.1]
    cases lastSlam ps <;> simp [initCache]
  · rw [show (get_snapshot (applyPuts ps initCache)).slam_ts =
      (applyPuts ps initCache).latest_slam_ts from rfl, hs.2]
    cases lastSlam ps <;> simp [initCache]

/-- C2.  In any interleaving of atomic puts and snapshot reads starting
from the startup cache, every snapshot the display loop observes is
pairwise consistent per stream: for each present stream the returned
image and timestamp were written together by one single put of the
trace; an image from one put is never paired with a timestamp from a
different put. -/
theorem snapshot_pairwise_consistent (evs : List Ev) :
    ∀ s ∈ (runTrace evs initCache).2, consistentS (putsOf evs) s := by
  intro s hs
  have h0 : consistentC ([] : List PutCall) initCache := by
    constructor <;> exact Or.inl ⟨rfl, rfl⟩
  have := runTrace_consistent evs initCache [] h0 s hs
  simpa using this

/-- Witness for C2 at a concrete trace: put rgb, put slam, put rgb
again, then snapshot; the observed snapshot is consistent. -/
theorem snapshot_pairwise_consistent_witness :
    consistentS
      (putsOf [Ev.put (PutCall.putRgb ⟨1⟩ ⟨10⟩),
               Ev.put (PutCall.putSlam ⟨2⟩ ⟨20⟩),
               Ev.put (PutCall.putRgb ⟨3⟩ ⟨30⟩), Ev.snap])
      (Snapshot.mk (some (Img.raw 3)) (some 30) (some (Img.raw 2)) (some 20)) :=
  snapshot_pairwise_consistent
    [Ev.put (PutCall.putRgb ⟨1⟩ ⟨10⟩),
     Ev.put (PutCall.putSlam ⟨2⟩ ⟨20⟩),
     Ev.put (PutCall.putRgb ⟨3⟩ ⟨30⟩), Ev.snap]
    (Snapshot.mk (some (Img.raw 3)) (some 30) (some (Img.raw 2)) (some 20))
    (by decide)

/-! ## Display loop (lines 72-112) -/

/-- An observable action of the display loop. -/
inductive Action where
  | imshow (window : String) (i : Img)
  | waitKeyA (ms : Nat)
  | printA (s : String)
  | sleepA
  | destroyAll
deriving DecidableEq, Repr

/-- Window title of the RGB window (line 92). -/
def rgbWindow : String := "Aria RGB (press q to quit)"

/-- Window title of the SLAM window (line 97). -/
def slamWindow : String := "Aria SLAM"

/-- The text `cv2.putText` draws (line 84): the Python f-string
`RGB ts(ns): {rgb_ts}`; a `None` timestamp formats as `None`. -/
def rgbText (ts : Option Int) : String :=
  "RGB ts(ns): " ++ (match ts with
                     | none => "None"
                     | some t => toString t)

/-- Whether a buffer has had `cv2.putText` applied to it. -/
def isAnnotatedImg (i : Img) : Bool :=
  match i with
  | Img.annotated _ _ => true
  | _ => false

/-- The body of one loop iteration after the snapshot (lines 79-99):
if rgb is present, convert it to BGR, draw the timestamp text on the
converted buffer and show it; if `--show-slam` was given and slam is
present, show the slam buffer as it is; then poll the keyboard. -/
def iterActions (showSlam : Bool) (s : Snapshot) : List Action :=
  (match s.rgb with
   | none => []
   | some rgb =>
     [Action.imshow rgbWindow (Img.annotated (rgbText s.rgb_ts) (Img.bgrOf rgb))]) ++
  (if showSlam then
     match s.slam with
     | none => []
     | some slam => [Action.imshow slamWindow slam]
   else []) ++
  [Action.waitKeyA 1]

/-- Whether an action list shows the given window. -/
def showsWindow (w : String) (acts : List Action) : Bool :=
  acts.any (fun a =>
    match a with
    | Action.imshow w' _ => w' == w
    | _ => false)

/-- How one pass through the loop body ended. -/
inductive ExitCause where
  | quitKey
  | interrupted
  | fuelOut
deriving DecidableEq, Repr

/-- The inputs one loop iteration consumes: the cache state it snapshots,
the value `cv2.waitKey(1)` returned, and whether a `KeyboardInterrupt`
arrived during this iteration. -/
structure IterInput where
  cache : Cache
  key : Nat
  interrupt : Bool
deriving DecidableEq, Repr

/-- `ord "q"` is 113; the code compares `waitKey(1) & 0xFF` to it
(lines 99-100). -/
def quitKeyCode : Nat := 113

/-- Message printed when the quit key is observed (line 101). -/
def quitMsg : String := "[Receiver] Quit requested."

/-- The `while True` loop (lines 72-104), driven by a finite list of
per-iteration inputs (a `fuelOut` result stands for the loop still
running when the list is exhausted).  An iteration whose input carries
an interrupt aborts into the `except KeyboardInterrupt` handler; else
the iteration snapshots the cache, shows the windows, polls the key and
breaks on `q`, or sleeps and continues. -/
def runLoop (showSlam : Bool) (inputs : List IterInput) :
    List (List Action) × ExitCause :=
  match inputs with
  | [] => ([], ExitCause.fuelOut)
  | inp :: rest =>
    if inp.interrupt then ([], ExitCause.interrupted)
    else
      let acts := iterActions showSlam (get_snapshot inp.cache)
      if inp.key % 256 == quitKeyCode then
        ([acts ++ [Action.printA quitMsg]], ExitCause.quitKey)
      else
        let (r, cause) := runLoop showSlam rest
        ((acts ++ [Action.sleepA]) :: r, cause)

/-- Message printed by the `except KeyboardInterrupt` handler
(line 107). -/
def interruptMsg : String := "\n[Receiver] KeyboardInterrupt, exiting..."

/-- Message printed by the `finally` block (line 112). -/
def doneMsg : String := "[Receiver] Done."

/-- The `finally` block (lines 109-112): destroy all windows, print. -/
def finallyBlock : List Action :=
  [Action.destroyAll, Action.printA doneMsg]

/-- Teardown actions after the loop ends (lines 106-112): the interrupt
handler prints its message, then the `finally` block runs on every
path. -/
def teardownActions (cause : ExitCause) : List Action :=
  (match cause with
   | ExitCause.interrupted => [Action.printA interruptMsg]
   | _ => []) ++ finallyBlock

/-- The process exit status: `main` returns `None` on both the quit path
and the interrupt path and never calls `sys.exit`, so the interpreter
exits with status 0. -/
def mainExitStatus (_cause : ExitCause) : Nat := 0

lemma rgbWindow_beq_slamWindow : (rgbWindow == slamWindow) = false := by
  decide

lemma showsWindow_append (w : String) (l1 l2 : List Action) :
    showsWindow w (l1 ++ l2) = (showsWindow w l1 || showsWindow w l2) := by
  simp [showsWindow, List.any_append]

lemma iter_shows_rgb (b : Bool) (s : Snapshot) (h : s.rgb.isSome) :
    showsWindow rgbWindow (iterActions b s) = true := by
  obtain ⟨i, hi⟩ := Option.isSome_iff_exists.mp h
  cases b <;> cases hs : s.slam <;>
    simp [iterActions, hi, hs, showsWindow]

lemma iter_no_rgb (b : Bool) (s : Snapshot) (h : s.rgb = none) :
    showsWindow rgbWindow (iterActions b s) = false := by
  have hne : slamWindow ≠ rgbWindow := by decide
  cases b <;> cases hs : s.slam <;>
    simp [iterActions, h, hs, showsWindow, hne]

lemma iter_no_slam (b : Bool) (s : Snapshot) (h : s.slam = none) :
    showsWindow slamWindow (iterActions b s) = false := by
  have hne : rgbWindow ≠ slamWindow := by decide
  cases b <;> cases hr : s.rgb <;>
    simp [iterActions, h, hr, showsWindow, hne]

lemma imshow_mem_iter {b : Bool} {s : Snapshot} {w : String} {i : Img}
    (h : Action.imshow w i ∈ iterActions b s) :
    (w = rgbWindow ∧ ∃ rgb, s.rgb = some rgb ∧
        i = Img.annotated (rgbText s.rgb_ts) (Img.bgrOf rgb)) ∨
    (w = slamWindow ∧ b = true ∧ s.slam = some i) := by
  unfold iterActions at h
  rcases List.mem_append.mp h with hAB | hC
  · rcases List.mem_append.mp hAB with hA | hB
    · cases hr : s.rgb with
      | none => rw [hr] at hA; simp at hA
      | some rgb =>
        rw [hr] at hA
        simp at hA
        exact Or.inl ⟨hA.1, rgb, rfl, hA.2⟩
    · cases b with
      | false => simp at hB
      | true =>
        cases hs : s.slam with
        | none => rw [hs] at hB; simp at hB
        | some sl =>
          rw [hs] at hB
          simp at hB
          refine Or.inr ⟨hB.1, rfl, ?_⟩
          rw [hB.2]
  · simp at hC

lemma iter_slam_window_iff (b : Bool) (s : Snapshot) :
    showsWindow slamWindow (iterActions b s) = true ↔
      b = true ∧ s.slam ≠ none := by
  have hne : rgbWindow ≠ slamWindow := by decide
  cases b <;> cases hr : s.rgb <;> cases hs : s.slam <;>
    simp [iterActions, hr, hs, showsWindow, hne]

/-- C3.  An iteration of the display loop opens the SLAM window iff the
`--show-slam` flag was given and a SLAM record is present in the
snapshot; with the flag unset, every window the iteration shows is the
RGB window, whatever puts preceded the snapshot. -/
theorem slam_window_iff_flag_and_present (b : Bool) (s : Snapshot) :
    (showsWindow slamWindow (iterActions b s) = true ↔
      b = true ∧ s.slam ≠ none) ∧
    (∀ w i, Action.imshow w i ∈ iterActions false s → w = rgbWindow) := by
  refine ⟨iter_slam_window_iff b s, ?_⟩
  intro w i hmem
  rcases imshow_mem_iter hmem with ⟨hw, -⟩ | ⟨-, hb, -⟩
  · exact hw
  · exact absurd hb (by decide)

/-- Witness for C3 at concrete inputs: with the flag set and a slam
record present the SLAM window is shown; with the flag unset, the only
window shown after `put("slam", ...)` is the RGB one (here: none at
all, as rgb is absent). -/
theorem slam_window_iff_flag_and_present_witness :
    showsWindow slamWindow
      (iterActions true (Snapshot.mk (some (Img.raw 1)) (some 5)
        (some (Img.raw 2)) (some 50))) = true :=
  (slam_window_iff_flag_and_present true
    (Snapshot.mk (some (Img.raw 1)) (some 5) (some (Img.raw 2)) (some 50))).1.mpr
    ⟨rfl, by decide⟩

/-- Counterexample to C9 as stated: after `put("slam", img2, 50)` with
`--show-slam` set, the iteration presents the slam buffer to the SLAM
window exactly as stored, with no `putText` annotation applied. -/
theorem slam_presented_unannotated_cex :
    Action.imshow slamWindow (Img.raw 2) ∈
      iterActions true
        (get_snapshot (applyPut (PutCall.putSlam ⟨2⟩ ⟨50⟩) initCache)) ∧
    isAnnotatedImg (Img.raw 2) = false := by
  constructor
  · simp [iterActions, applyPut, slam_callback, get_snapshot, initCache,
      to_numpy_array]
  · rfl

lemma lastSlam_raw (ps : List PutCall) (x : Img × Int)
    (h : lastSlam ps = some x) : ∃ n, x.1 = Img.raw n := by
  induction ps with
  | nil => simp [lastSlam] at h
  | cons p rest ih =>
    simp only [lastSlam] at h
    cases hr : lastSlam rest with
    | some y => rw [hr] at h; exact ih (by rw [hr, ← Option.some_inj.mp h])
    | none =>
      rw [hr] at h
      cases p with
      | putRgb d rec => simp [putRecordSlam] at h
      | putSlam d rec =>
        refine ⟨d.arrayId, ?_⟩
        have := Option.some_inj.mp h
        rw [← this]
        rfl

/-- C9 amended.  Every image the loop presents to the RGB window carries
the `putText` annotation; the image presented to the SLAM window (when
shown) is the stored decoded array, never annotated. -/
theorem presented_images_annotation_amended (b : Bool) (ps : List PutCall) :
    (∀ i, Action.imshow rgbWindow i ∈
        iterActions b (get_snapshot (applyPuts ps initCache)) →
      isAnnotatedImg i = true) ∧
    (∀ i, Action.imshow slamWindow i ∈
        iterActions b (get_snapshot (applyPuts ps initCache)) →
      isAnnotatedImg i = false) := by
  constructor
  · intro i hmem
    rcases imshow_mem_iter hmem with ⟨-, rgb, -, hi⟩ | ⟨hw, -, -⟩
    · rw [hi]; rfl
    · exact absurd hw (by decide)
  · intro i hmem
    rcases imshow_mem_iter hmem with ⟨hw, -, -, -⟩ | ⟨-, -, hslam⟩
    · exact absurd hw (by decide)
    · have hcomp := (applyPuts_slam_component ps initCache).1
      rw [show (get_snapshot (applyPuts ps initCache)).slam =
        (applyPuts ps initCache).latest_slam from rfl, hcomp] at hslam
      cases hls : lastSlam ps with
      | none => rw [hls] at hslam; simp [initCache] at hslam
      | some x =>
        rw [hls] at hslam
        obtain ⟨n, hraw⟩ := lastSlam_raw ps x hls
        have hix : i = Img.raw n := by
          have : x.1 = i := Option.some_inj.mp (by simpa using hslam)
          rw [← this, hraw]
        rw [hix]
        rfl

/-- Witness for C9 amended: after `put("rgb", img1, 5)` with the flag
set, the theorem applied at the concrete buffer the loop shows in the
RGB window yields that it is annotated. -/
theorem presented_images_annotation_amended_witness :
    isAnnotatedImg
      (Img.annotated (rgbText (some 5)) (Img.bgrOf (Img.raw 1))) = true :=
  (presented_images_annotation_amended true
      [PutCall.putRgb ⟨1⟩ ⟨5⟩]).1
    (Img.annotated (rgbText (some 5)) (Img.bgrOf (Img.raw 1)))
    (by decide)

/-- C4.  An absent stream is skipped, not an error: an iteration whose
snapshot lacks a stream shows no window for it; and a run whose every
iteration has rgb present, slam absent and no interrupt, ending on the
quit key, terminates through the quit path (no exception: `runLoop` is a
total function and the cause is `quitKey`, not an abort) and shows the
RGB window, and never a SLAM window, on every iteration. -/
theorem absent_stream_skipped (b : Bool) (pre : List IterInput)
    (lastI : IterInput)
    (hpre : ∀ inp ∈ pre, inp.cache.latest_rgb.isSome = true ∧
      inp.cache.latest_slam = none ∧ inp.interrupt = false ∧
      ¬ inp.key % 256 = quitKeyCode)
    (hrgb : lastI.cache.latest_rgb.isSome = true)
    (hslam : lastI.cache.latest_slam = none)
    (hint : lastI.interrupt = false)
    (hkey : lastI.key % 256 = quitKeyCode) :
    (∀ s : Snapshot,
      (s.rgb = none → showsWindow rgbWindow (iterActions b s) = false) ∧
      (s.slam = none → showsWindow slamWindow (iterActions b s) = false)) ∧
    (runLoop b (pre ++ [lastI])).2 = ExitCause.quitKey ∧
    ∀ acts ∈ (runLoop b (pre ++ [lastI])).1,
      showsWindow rgbWindow acts = true ∧
      showsWindow slamWindow acts = false := by
  refine ⟨fun s => ⟨iter_no_rgb b s, iter_no_slam b s⟩, ?_⟩
  induction pre with
  | nil =>
    have hk : (lastI.key % 256 == quitKeyCode) = true := by
      simpa using hkey
    constructor
    · simp [runLoop, hint, hk]
    · intro acts hacts
      simp only [List.nil_append, runLoop, hint, Bool.false_eq_true,
        if_false, hk, if_true, List.mem_singleton] at hacts
      subst hacts
      have h1 : showsWindow rgbWindow
          (iterActions b (get_snapshot lastI.cache)) = true :=
        iter_shows_rgb b _ hrgb
      have h2 : showsWindow slamWindow
          (iterActions b (get_snapshot lastI.cache)) = false :=
        iter_no_slam b _ hslam
      have h3 : ∀ w, showsWindow w [Action.printA quitMsg] = false := by
        intro w; simp [showsWindow]
      simp [showsWindow_append, h1, h2, h3]
  | cons inp rest ih =>
    obtain ⟨hi1, hi2, hi3, hi4⟩ := hpre inp (List.mem_cons_self _ _)
    have hk : (inp.key % 256 == quitKeyCode) = false := by
      simpa using hi4
    have ihr := ih (fun q hq => hpre q (List.mem_cons_of_mem _ hq))
    constructor
    · simpa [runLoop, hi3, hk] using ihr.1
    · intro acts hacts
      simp only [List.cons_append, runLoop, hi3, Bool.false_eq_true,
        if_false, hk, List.mem_cons] at hacts
      rcases hacts with heq | hmem
      · subst heq
        have h1 : showsWindow rgbWindow
            (iterActions b (get_snapshot inp.cache)) = true :=
          iter_shows_rgb b _ hi1
        have h2 : showsWindow slamWindow
            (iterActions b (get_snapshot inp.cache)) = false :=
          iter_no_slam b _ hi2
        have h3 : ∀ w, showsWindow w [Action.sleepA] = false := by
          intro w; simp [showsWindow]
        simp [showsWindow_append, h1, h2, h3]
      · exact ihr.2 acts hmem

/-- Witness for C4: a two-iteration run, rgb present and slam absent
throughout, the second iteration pressing `q`. -/
theorem absent_stream_skipped_witness :
    (runLoop false
      ([⟨Cache.mk (some (Img.raw 1)) (some 5) none none, 0, false⟩] ++
        [⟨Cache.mk (some (Img.raw 1)) (some 5) none none, 113, false⟩])).2 =
      ExitCause.quitKey :=
  (absent_stream_skipped false
    [⟨Cache.mk (some (Img.raw 1)) (some 5) none none, 0, false⟩]
    ⟨Cache.mk (some (Img.raw 1)) (some 5) none none, 113, false⟩
    (by decide) (by decide) (by decide) (by decide) (by decide)).2.1

/-- C5.  Both termination paths — quit key and KeyboardInterrupt — run
the same `finally` block: `destroyAllWindows` happens on both exit
paths, and the process exit status is 0 on both, with no distinct exit
codes. -/
theorem teardown_uniform :
    Action.destroyAll ∈ teardownActions ExitCause.quitKey ∧
    Action.destroyAll ∈ teardownActions ExitCause.interrupted ∧
    teardownActions ExitCause.quitKey = finallyBlock ∧
    teardownActions ExitCause.interrupted =
      Action.printA interruptMsg :: finallyBlock ∧
    mainExitStatus ExitCause.quitKey = mainExitStatus ExitCause.interrupted ∧
    mainExitStatus ExitCause.quitKey = 0 ∧
    mainExitStatus ExitCause.interrupted = 0 := by
  exact ⟨by decide, by decide, rfl, rfl, rfl, rfl, rfl⟩

/-- C7.  Puts on different streams do not interfere: after the two
atomic critical sections run in either order the cache state is the
same, and a snapshot taken after both shows both updates. -/
theorem puts_on_different_streams_commute (c : Cache) (d1 d2 : ImageData)
    (r1 r2 : ImageDataRecord) :
    rgb_callback d1 r1 (slam_callback d2 r2 c) =
      slam_callback d2 r2 (rgb_callback d1 r1 c) ∧
    (get_snapshot (rgb_callback d1 r1 (slam_callback d2 r2 c))).rgb =
      some (to_numpy_array d1) ∧
    (get_snapshot (rgb_callback d1 r1 (slam_callback d2 r2 c))).rgb_ts =
      some r1.capture_timestamp_ns ∧
    (get_snapshot (rgb_callback d1 r1 (slam_callback d2 r2 c))).slam =
      some (to_numpy_array d2) ∧
    (get_snapshot (rgb_callback d1 r1 (slam_callback d2 r2 c))).slam_ts =
      some r2.capture_timestamp_ns := by
  refine ⟨?_, rfl, rfl, rfl, rfl⟩
  simp [rgb_callback, slam_callback]

/-! ## CLI and receiver setup (lines 36-69) -/

/-- The parsed command line (lines 58-63), with argparse defaults. -/
structure Args where
  host : String
  port : Int
  record_to_vrs : String
  show_slam : Bool
deriving DecidableEq, Repr

/-- The value of `args` when no flags are given: every field takes its
argparse default (lines 59-62). -/
def defaultArgs : Args :=
  { host := "0.0.0.0", port := 6768, record_to_vrs := "", show_slam := false }

/-- `sdk_gen2.HttpServerConfig` as configured (lines 38-40). -/
structure HttpServerConfig where
  address : String
  port : Int
deriving DecidableEq, Repr

/-- The observable configuration of the `StreamReceiver` after
`build_receiver` returns (lines 36-54): server config set, recording
requested iff a nonempty path was given (Python string truthiness),
both callbacks registered. -/
structure StreamReceiver where
  server_config : HttpServerConfig
  record_path : Option String
  rgb_registered : Bool
  slam_registered : Bool
deriving DecidableEq, Repr

/-- `build_receiver` (lines 36-54). -/
def build_receiver (host : String) (port : Int) (record_to_vrs : String) :
    StreamReceiver :=
  { server_config := { address := host, port := port },
    record_path := if record_to_vrs = "" then none else some record_to_vrs,
    rgb_registered := true,
    slam_registered := true }

/-- One call `build_receiver` or `main` makes on the receiver during
setup. -/
inductive SetupAction where
  | setServerConfig (address : String) (port : Int)
  | recordToVrs (path : String)
  | registerRgbCb
  | registerSlamCb
  | startServer
deriving DecidableEq, Repr

/-- The calls `build_receiver` makes, in source order (lines 44-52):
set the server config; if the path is nonempty, request recording with
that exact string; register the two callbacks. -/
def build_receiver_trace (host : String) (port : Int)
    (record_to_vrs : String) : List SetupAction :=
  [SetupAction.setServerConfig host port] ++
  (if record_to_vrs = "" then [] else
    [SetupAction.recordToVrs record_to_vrs]) ++
  [SetupAction.registerRgbCb, SetupAction.registerSlamCb]

/-- The setup calls `main` makes (lines 65-69): everything
`build_receiver` does, then `start_server()`. -/
def mainSetupTrace (a : Args) : List SetupAction :=
  build_receiver_trace a.host a.port a.record_to_vrs ++
    [SetupAction.startServer]

/-- C8.  The CLI maps onto the receiver as specified: with no flags the
server address is "0.0.0.0" and the port 6768; a nonempty
`--record-to-vrs` path is forwarded verbatim to `record_to_vrs` before
`start_server`; and `--show-slam` changes neither the setup trace nor
any loop action other than the SLAM-window `imshow`. -/
theorem cli_receiver_mapping :
    (build_receiver defaultArgs.host defaultArgs.port
        defaultArgs.record_to_vrs).server_config.address = "0.0.0.0" ∧
    (build_receiver defaultArgs.host defaultArgs.port
        defaultArgs.record_to_vrs).server_config.port = 6768 ∧
    (∀ p : String, ¬ p = "" →
      mainSetupTrace { defaultArgs with record_to_vrs := p } =
        [SetupAction.setServerConfig "0.0.0.0" 6768,
         SetupAction.recordToVrs p,
         SetupAction.registerRgbCb, SetupAction.registerSlamCb,
         SetupAction.startServer]) ∧
    (∀ (a : Args) (bb : Bool),
      mainSetupTrace { a with show_slam := bb } = mainSetupTrace a) ∧
    (∀ (bb : Bool) (s : Snapshot),
      List.filter
        (fun act => match act with
          | Action.imshow w _ => !(w == slamWindow)
          | _ => true)
        (iterActions bb s) = iterActions false s) := by
  have hne : (rgbWindow == slamWindow) = false := by decide
  refine ⟨rfl, rfl, ?_, ?_, ?_⟩
  · intro p hp
    simp [mainSetupTrace, build_receiver_trace, defaultArgs, hp]
  · intro a bb
    rfl
  · intro bb s
    cases bb <;> cases hr : s.rgb <;> cases hs : s.slam <;>
      simp [iterActions, hr, hs, hne]

/-- Witness for C8 at a concrete path: `--record-to-vrs /tmp/out.vrs`
yields exactly this setup call sequence, recording before the server
start. -/
theorem cli_receiver_mapping_witness :
    mainSetupTrace { defaultArgs with record_to_vrs := "/tmp/out.vrs" } =
      [SetupAction.setServerConfig "0.0.0.0" 6768,
       SetupAction.recordToVrs "/tmp/out.vrs",
       SetupAction.registerRgbCb, SetupAction.registerSlamCb,
       SetupAction.startServer] :=
  cli_receiver_mapping.2.2.1 "/tmp/out.vrs" (by decide)

/-- C10.  Both callbacks are registered unconditionally — the setup
trace contains both registrations for every argument vector, the
`--show-slam` flag included — so a SLAM frame delivered with the flag
unset is still decoded and stored in the cache with its timestamp
(and the recording request depends only on the path), even though the
display loop never opens the SLAM window for it. -/
theorem slam_registered_and_stored_unconditionally
    (host : String) (port : Int) (rec : String) (a : Args)
    (d : ImageData) (r : ImageDataRecord) (c : Cache) :
    (build_receiver host port rec).rgb_registered = true ∧
    (build_receiver host port rec).slam_registered = true ∧
    SetupAction.registerRgbCb ∈ mainSetupTrace a ∧
    SetupAction.registerSlamCb ∈ mainSetupTrace a ∧
    (slam_callback d r c).latest_slam = some (to_numpy_array d) ∧
    (slam_callback d r c).latest_slam_ts = some r.capture_timestamp_ns ∧
    (build_receiver host port rec).record_path =
      (if rec = "" then none else some rec) ∧
    showsWindow slamWindow
      (iterActions false (get_snapshot (slam_callback d r c))) = false := by
  refine ⟨rfl, rfl, ?_, ?_, rfl, rfl, rfl, ?_⟩
  · by_cases h : a.record_to_vrs = "" <;>
      simp [mainSetupTrace, build_receiver_trace, h]
  · by_cases h : a.record_to_vrs = "" <;>
      simp [mainSetupTrace, build_receiver_trace, h]
  · cases h : showsWindow slamWindow
      (iterActions false (get_snapshot (slam_callback d r c))) with
    | false => rfl
    | true =>
      exact absurd ((iter_slam_window_iff false _).mp h).1 (by simp)

/-! ## Heap model of buffers (object identity and in-place mutation)

The value model above identifies a numpy array with its contents.  To
settle the mutation/copy claim the heap model makes object identity
explicit: a heap is a list of buffers, a reference is an index, the
cache slots hold references.  `to_numpy_array` and `.copy()` allocate,
`cv2.cvtColor` returns a freshly allocated array, and `cv2.putText`
writes its first argument in place.  The content transformations of the
external cv2 calls are opaque; the model keeps only their allocation
and mutation discipline, which is what the claim is about. -/

/-- A pixel buffer in the heap model: its raw words. -/
abbrev Buf := List Nat

/-- The heap: buffer number `r` lives at index `r`. -/
abbrev Heap := List Buf

/-- Read the buffer at a reference (empty if dangling). -/
def readH : Heap → Nat → Buf
  | [], _ => []
  | b :: _, 0 => b
  | _ :: h, n + 1 => readH h n

/-- Overwrite the buffer at a reference in place. -/
def writeH : Heap → Nat → Buf → Heap
  | [], _, _ => []
  | _ :: h, 0, b => b :: h
  | x :: h, n + 1, b => x :: writeH h n b

/-- Allocate a fresh buffer, returning the new heap and its
reference. -/
def allocH (h : Heap) (b : Buf) : Heap × Nat :=
  (h ++ [b], h.length)

/-- The four shared variables, holding references into the heap. -/
structure CacheH where
  rgbRef : Option Nat
  rgbTs : Option Int
  slamRef : Option Nat
  slamTs : Option Int
deriving DecidableEq, Repr

/-- `rgb_callback` in the heap model: `to_numpy_array` allocates the
decoded array, the critical section then replaces the rgb slot with the
new reference and timestamp — the previous buffer is not written. -/
def rgb_callbackH (h : Heap) (c : CacheH) (pix : Buf) (ts : Int) :
    Heap × CacheH :=
  let a := allocH h pix
  (a.1, { c with rgbRef := some a.2, rgbTs := some ts })

/-- `slam_callback` in the heap model. -/
def slam_callbackH (h : Heap) (c : CacheH) (pix : Buf) (ts : Int) :
    Heap × CacheH :=
  let a := allocH h pix
  (a.1, { c with slamRef := some a.2, slamTs := some ts })

/-- `.copy()` of an optional slot: allocate a fresh buffer with the
same contents; `None` stays `None`. -/
def copyOptH (h : Heap) : Option Nat → Heap × Option Nat
  | none => (h, none)
  | some r => ((allocH h (readH h r)).1, some (allocH h (readH h r)).2)

/-- What the snapshot block leaves in the loop's locals: references to
the two copies and the two timestamps. -/
structure SnapshotH where
  rgbRef : Option Nat
  rgbTs : Option Int
  slamRef : Option Nat
  slamTs : Option Int
deriving DecidableEq, Repr

/-- The snapshot block (lines 73-77) in the heap model: copy the rgb
buffer if present, then the slam buffer if present. -/
def get_snapshotH (h : Heap) (c : CacheH) : Heap × SnapshotH :=
  let pr := copyOptH h c.rgbRef
  let ps := copyOptH pr.1 c.slamRef
  (ps.1, { rgbRef := pr.2, rgbTs := c.rgbTs,
           slamRef := ps.2, slamTs := c.slamTs })

/-- Content model of `cv2.cvtColor(..., COLOR_RGB2BGR)`; the external
transform is opaque, what the model keeps is that the result is a
freshly allocated array. -/
def cvtColor_RGB2BGR (b : Buf) : Buf := b.reverse

/-- Content model of what `cv2.putText` leaves in the buffer it draws
on; the external rasterisation is opaque, what the model keeps is that
`putText` mutates its argument in place. -/
def putTextOverlay (text : String) (b : Buf) : Buf := text.length :: b

/-- Lines 80-92 in the heap model: if the snapshot has an rgb copy,
allocate the BGR conversion, draw the text into it in place, and show
it; returns the heap and the references passed to `imshow`. -/
def processRgbH (h : Heap) (ts : Option Int) : Option Nat → Heap × List Nat
  | none => (h, [])
  | some r =>
    let a := allocH h (cvtColor_RGB2BGR (readH h r))
    (writeH a.1 a.2 (putTextOverlay (rgbText ts) (readH a.1 a.2)), [a.2])

/-- One full display iteration in the heap model (lines 73-97):
snapshot, rgb processing, optional slam `imshow` (which reads only). -/
def displayIterH (showSlam : Bool) (h : Heap) (c : CacheH) :
    Heap × List Nat :=
  let hs := get_snapshotH h c
  let pr := processRgbH hs.1 hs.2.rgbTs hs.2.rgbRef
  (pr.1, pr.2 ++
    (if showSlam then
      (match hs.2.slamRef with
       | none => []
       | some r => [r])
     else []))

lemma readH_append_self (h : Heap) (b : Buf) :
    readH (h ++ [b]) h.length = b := by
  induction h with
  | nil => rfl
  | cons x t ih => exact ih

lemma readH_append (h : Heap) (b : Buf) (r : Nat) (hr : r < h.length) :
    readH (h ++ [b]) r = readH h r := by
  induction h generalizing r with
  | nil => simp at hr
  | cons x t ih =>
    cases r with
    | zero => rfl
    | succ n =>
      simp only [List.length_cons, Nat.succ_lt_succ_iff] at hr
      exact ih n hr

lemma writeH_length (h : Heap) (r : Nat) (b : Buf) :
    (writeH h r b).length = h.length := by
  induction h generalizing r with
  | nil => rfl
  | cons x t ih =>
    cases r with
    | zero => rfl
    | succ n => simp [writeH, ih n]

lemma readH_writeH_ne (h : Heap) (r r' : Nat) (b : Buf) (hne : r ≠ r') :
    readH (writeH h r' b) r = readH h r := by
  induction h generalizing r r' with
  | nil => rfl
  | cons x t ih =>
    cases r' with
    | zero =>
      cases r with
      | zero => exact absurd rfl hne
      | succ n => rfl
    | succ m =>
      cases r with
      | zero => rfl
      | succ n =>
        exact ih n m (fun he => hne (by rw [he]))

/-- Heap extension: the new heap is at least as long and agrees with
the old one on every old reference. -/
def hext (h h' : Heap) : Prop :=
  h.length ≤ h'.length ∧ ∀ r, r < h.length → readH h' r = readH h r

lemma hext_refl (h : Heap) : hext h h :=
  ⟨le_refl _, fun _ _ => rfl⟩

lemma hext_trans {h1 h2 h3 : Heap} (a : hext h1 h2) (b : hext h2 h3) :
    hext h1 h3 :=
  ⟨le_trans a.1 b.1,
   fun r hr => by rw [b.2 r (lt_of_lt_of_le hr a.1), a.2 r hr]⟩

lemma hext_alloc (h : Heap) (b : Buf) : hext h (h ++ [b]) := by
  refine ⟨by simp, fun r hr => readH_append h b r hr⟩

lemma copyOptH_hext (h : Heap) (o : Option Nat) :
    hext h (copyOptH h o).1 := by
  cases o with
  | none => exact hext_refl h
  | some r => exact hext_alloc h (readH h r)

lemma get_snapshotH_hext (h : Heap) (c : CacheH) :
    hext h (get_snapshotH h c).1 :=
  hext_trans (copyOptH_hext h c.rgbRef)
    (copyOptH_hext (copyOptH h c.rgbRef).1 c.slamRef)

lemma processRgbH_hext (h : Heap) (ts : Option Int) (o : Option Nat) :
    hext h (processRgbH h ts o).1 := by
  cases o with
  | none => exact hext_refl h
  | some r =>
    refine ⟨?_, ?_⟩
    · simp [processRgbH, allocH, writeH_length]
    · intro q hq
      show readH (writeH (h ++ [cvtColor_RGB2BGR (readH h r)]) h.length
        (putTextOverlay (rgbText ts)
          (readH (h ++ [cvtColor_RGB2BGR (readH h r)]) h.length))) q = readH h q
      rw [readH_writeH_ne _ _ _ _ (Nat.ne_of_lt hq),
        readH_append h _ q hq]

lemma displayIterH_hext (showSlam : Bool) (h : Heap) (c : CacheH) :
    hext h (displayIterH showSlam h c).1 :=
  hext_trans (get_snapshotH_hext h c)
    (processRgbH_hext (get_snapshotH h c).1 (get_snapshotH h c).2.rgbTs
      (get_snapshotH h c).2.rgbRef)

/-- C6.  All mutation is confined to `put`, and `get_snapshot` hands
out independent copies: a put on one stream leaves the other stream's
slot (reference and timestamp) and every existing buffer untouched;
the snapshot leaves every existing buffer untouched and, for a present
stream, returns a freshly allocated reference — distinct from every
cache reference — holding the same contents; and a full display
iteration (snapshot, BGR conversion, in-place `putText` on the fresh
conversion, `imshow`) never alters any buffer the cache points to:
stored buffers are only ever replaced wholesale, never written. -/
theorem cache_buffers_never_mutated (h : Heap) (c : CacheH) (pix : Buf)
    (ts : Int) (showSlam : Bool)
    (hvalid : ∀ r, c.rgbRef = some r ∨ c.slamRef = some r → r < h.length) :
    ((rgb_callbackH h c pix ts).2.slamRef = c.slamRef ∧
     (rgb_callbackH h c pix ts).2.slamTs = c.slamTs ∧
     (slam_callbackH h c pix ts).2.rgbRef = c.rgbRef ∧
     (slam_callbackH h c pix ts).2.rgbTs = c.rgbTs) ∧
    (∀ r, r < h.length →
      readH (rgb_callbackH h c pix ts).1 r = readH h r ∧
      readH (slam_callbackH h c pix ts).1 r = readH h r) ∧
    (∀ r, r < h.length →
      readH (get_snapshotH h c).1 r = readH h r) ∧
    (∀ r, c.rgbRef = some r →
      ∃ rr, (get_snapshotH h c).2.rgbRef = some rr ∧ h.length ≤ rr ∧
        readH (get_snapshotH h c).1 rr = readH h r) ∧
    (∀ r, c.slamRef = some r →
      ∃ rr, (get_snapshotH h c).2.slamRef = some rr ∧ h.length ≤ rr ∧
        readH (get_snapshotH h c).1 rr = readH h r) ∧
    (∀ r, c.rgbRef = some r ∨ c.slamRef = some r →
      readH (displayIterH showSlam h c).1 r = readH h r) := by
  obtain ⟨cr, crts, csr, csts⟩ := c
  refine ⟨⟨rfl, rfl, rfl, rfl⟩, ?_, ?_, ?_, ?_, ?_⟩
  · intro r hr
    exact ⟨readH_append h pix r hr, readH_append h pix r hr⟩
  · intro r hr
    exact (get_snapshotH_hext h ⟨cr, crts, csr, csts⟩).2 r hr
  · intro r hr
    simp only at hr
    subst hr
    refine ⟨h.length, rfl, le_refl _, ?_⟩
    show readH (copyOptH (h ++ [readH h r]) csr).1 h.length = readH h r
    rw [(copyOptH_hext (h ++ [readH h r]) csr).2 h.length (by simp)]
    exact readH_append_self h (readH h r)
  · intro r hr
    simp only at hr
    subst hr
    have hre := copyOptH_hext h cr
    refine ⟨(copyOptH h cr).1.length, rfl, hre.1, ?_⟩
    show readH ((copyOptH h cr).1 ++ [readH (copyOptH h cr).1 r])
      (copyOptH h cr).1.length = readH h r
    rw [readH_append_self]
    exact hre.2 r (hvalid r (Or.inr rfl))
  · intro r hr
    exact (displayIterH_hext showSlam h ⟨cr, crts, csr, csts⟩).2 r (hvalid r hr)

/-- Witness for C6 at a concrete heap and cache: two buffers, both
slots live; the display iteration leaves the stored rgb buffer
unchanged. -/
theorem cache_buffers_never_mutated_witness :
    readH (displayIterH true [[1, 2], [3]]
      (CacheH.mk (some 0) (some 5) (some 1) (some 7))).1 0 =
      readH [[1, 2], [3]] 0 :=
  (cache_buffers_never_mutated [[1, 2], [3]]
      (CacheH.mk (some 0) (some 5) (some 1) (some 7)) [9] 11 true
      (by
        intro r hr
        rcases hr with hr | hr
        · obtain rfl : (0 : Nat) = r := by simpa using hr
          decide
        · obtain rfl : (1 : Nat) = r := by simpa using hr
          decide)).2.2.2.2.2 0 (Or.inl rfl)

end ReceiverView
